import Mathlib

/-!
Shallow embedding of the retrieval-augmented-generation core of
`mermaid_llm` (backend/src/mermaid_llm/rag/): the retriever with source
deduplication, the streaming and buffered generation paths, the indexing
operation, the message-list construction, and a spec-modelled chunker.
Theorems at the end settle the spec's claims about these components.
-/

namespace MermaidRag

/-- Similarity scores come out of the vector store as Python floats; the
retriever merely converts (`float(score)`) and stores them, never computing
with them, so they are modelled as rationals. -/
abbrev Score := Rat

/-- Metadata attached to a loaded document / chunk (`loaders.py` populates
`filename` plus at most one of `page`, `slide`, `sheet`; all keys may be
absent, hence every field is optional — `metadata.get` in the source). -/
structure DocMetadata where
  filename : Option String
  page : Option Int
  slide : Option Int
  sheet : Option String
  deriving Repr, DecidableEq

/-- A LangChain `Document`: page content plus metadata. -/
structure Document where
  page_content : String
  metadata : DocMetadata
  deriving Repr, DecidableEq

/-- `retriever.py` `SourceInfo` dataclass. -/
structure SourceInfo where
  filename : String
  page : Option Int
  slide : Option Int
  sheet : Option String
  score : Score
  deriving Repr, DecidableEq

/-- `SourceInfo.from_document`: `metadata.get("filename", "unknown")` and the
optional locators, with the retrieval score. -/
def SourceInfo.from_document (doc : Document) (score : Score) : SourceInfo :=
  ⟨doc.metadata.filename.getD "unknown", doc.metadata.page, doc.metadata.slide,
    doc.metadata.sheet, score⟩

/-- Python `str()` rendering of an optional integer field (`str(None)` is
`"None"`). -/
def pyStrOptInt : Option Int → String
  | none => "None"
  | some n => toString n

/-- Python `str()` rendering of an optional string field. -/
def pyStrOptStr : Option String → String
  | none => "None"
  | some s => s

/-- The dedup key built in `DocumentRetriever.retrieve`:
`f"{source.filename}:{source.page}:{source.slide}:{source.sheet}"`. -/
def sourceKey (s : SourceInfo) : String :=
  s.filename ++ ":" ++ pyStrOptInt s.page ++ ":" ++ pyStrOptInt s.slide ++ ":"
    ++ pyStrOptStr s.sheet

/-- The `(filename, page, slide, sheet)` tuple named by the spec as the
uniqueness key. -/
def sourceTuple (s : SourceInfo) : String × Option Int × Option Int × Option String :=
  (s.filename, s.page, s.slide, s.sheet)

/-- `"\n\n---\n\n".join(...)` -/
def joinSep (sep : String) : List String → String
  | [] => ""
  | [s] => s
  | s :: rest => s ++ sep ++ joinSep sep (rest)

/-- `retriever.py` `RetrievalResult` dataclass. -/
structure RetrievalResult where
  documents : List Document
  sources : List SourceInfo
  deriving Repr, DecidableEq

/-- The `context` property: document texts joined with `"\n\n---\n\n"`. -/
def RetrievalResult.context (r : RetrievalResult) : String :=
  joinSep "\n\n---\n\n" (r.documents.map (fun d => d.page_content))

/-- The loop body of `DocumentRetriever.retrieve`: each `(doc, score)` result
is appended to `documents`; its `SourceInfo` is appended to `sources` only if
its string key has not been seen (`seen_sources` set). -/
def retrieveAux : List (Document × Score) → List String → List Document × List SourceInfo
  | [], _ => ([], [])
  | (doc, score) :: rest, seen =>
    let source := SourceInfo.from_document doc score
    let key := sourceKey source
    if key ∈ seen then
      let p := retrieveAux rest seen
      (doc :: p.1, p.2)
    else
      let p := retrieveAux rest (key :: seen)
      (doc :: p.1, source :: p.2)

/-- `DocumentRetriever.retrieve`, as a function of the similarity-search
results (the vector-store call is external I/O). -/
def retrieve (results : List (Document × Score)) : RetrievalResult :=
  ⟨(retrieveAux results []).1, (retrieveAux results []).2⟩

/-- A document whose sheet name is the literal string `"None"`. -/
def sampleDocA : Document := ⟨"chunk a", ⟨some "a", none, none, some "None"⟩⟩

/-- A document with no sheet; its string dedup key collides with
`sampleDocA`'s (`"a:None:None:None"`). -/
def sampleDocB : Document := ⟨"chunk b", ⟨some "a", none, none, none⟩⟩

/-- A LangChain chat message: `HumanMessage` or `AIMessage`. -/
inductive ChatMessage where
  | human (content : String)
  | ai (content : String)
  deriving Repr, DecidableEq

/-- One entry of `chat_history`: a `{"role": ..., "content": ...}` dict. -/
structure HistEntry where
  role : String
  content : String
  deriving Repr, DecidableEq

/-- The history loop shared by `run_rag` and `stream_rag`: `"user"` entries
become `HumanMessage`, `"assistant"` entries become `AIMessage`, any other
role falls through both branches and is dropped. -/
def historyMessages : List HistEntry → List ChatMessage
  | [] => []
  | e :: rest =>
    if e.role = "user" then ChatMessage.human e.content :: historyMessages rest
    else if e.role = "assistant" then ChatMessage.ai e.content :: historyMessages rest
    else historyMessages rest

/-- Message-list construction in `run_rag` / `stream_rag`: converted history
followed by the current query as a `HumanMessage`.  A `None` history behaves
like the empty list (the loop body never runs either way). -/
def buildMessages (query : String) (chat_history : List HistEntry) : List ChatMessage :=
  historyMessages chat_history ++ [ChatMessage.human query]

/-- One value yielded by `generate_streaming`: the streaming yields carry no
`model`/`provider` keys, the final yield does. -/
structure GenUpdate where
  response : String
  is_streaming : Bool
  model : Option String
  provider : Option String
  deriving Repr, DecidableEq

/-- The `async for chunk in llm.astream(prompt)` loop of
`generate_streaming`, over the extracted text of each backend chunk: a chunk
with falsy (empty) content is skipped; otherwise its text is appended to the
accumulator and the accumulator re-yielded with `is_streaming=True`.  After
the stream ends one final update is yielded with `is_streaming=False` and the
configured model/provider names. -/
def genLoop (model provider : String) : String → List String → List GenUpdate
  | acc, [] => [⟨acc, false, some model, some provider⟩]
  | acc, delta :: rest =>
    if delta = "" then genLoop model provider acc rest
    else ⟨acc ++ delta, true, none, none⟩ :: genLoop model provider (acc ++ delta) rest

/-- `generate_streaming`, as a function of the stub backend's stream of text
deltas (prompt formation and the LLM call are external I/O). -/
def generate_streaming (deltas : List String) (model provider : String) : List GenUpdate :=
  genLoop model provider "" deltas

/-- The tagged events yielded by `stream_rag`. -/
inductive StreamEvent where
  | sources (sources : List SourceInfo) (context : String)
  | chunk (response : String) (is_streaming : Bool)
  | done (response : String) (model : String) (provider : String)
      (sources : List SourceInfo)
  deriving Repr, DecidableEq

/-- The final `done` event of `stream_rag`, built from the loop variable
`update` left over after the `async for` loop — i.e. from the last update
yielded by `generate_streaming` (`update.get(..., "")` for each field).  The
generator always yields at least once, so the `none` branch is unreachable
(in Python it would be a `NameError`). -/
def doneEvent (updates : List GenUpdate) (srcs : List SourceInfo) : StreamEvent :=
  match updates.getLast? with
  | some u => StreamEvent.done u.response (u.model.getD "") (u.provider.getD "") srcs
  | none => StreamEvent.done "" "" "" srcs

/-- `stream_rag`, as a function of the similarity-search results and the stub
backend's deltas: build the messages (they feed the generation prompt, which
is external I/O), run retrieval, yield one `sources` event, re-yield every
`generate_streaming` update as a `chunk` event, then yield the `done` event. -/
def stream_rag (query : String) (chat_history : List HistEntry)
    (results : List (Document × Score)) (deltas : List String)
    (model provider : String) : List StreamEvent :=
  let _messages := buildMessages query chat_history
  let r := retrieve results
  let updates := generate_streaming deltas model provider
  StreamEvent.sources r.sources r.context
    :: (updates.map fun u => StreamEvent.chunk u.response u.is_streaming)
    ++ [doneEvent updates r.sources]

/-- `state.py` `RAGState` (the `messages` reducer only appends, and each node
runs once, so the final state is the initial state overwritten by the
`retrieve` node's and then the `generate` node's partial updates). -/
structure RAGState where
  messages : List ChatMessage
  query : String
  retrieved_docs : List Document
  context : String
  sources : List SourceInfo
  response : String
  is_streaming : Bool
  model : String
  provider : String
  deriving Repr, DecidableEq

/-- `run_rag`, as a function of the similarity-search results and the stub
backend's buffered completion text: build messages, run the graph
`retrieve -> generate`, return the final state.  `generate` extracts the
completion text (`buffered`) and attaches the configured model/provider;
`is_streaming` keeps its initial `False`. -/
def run_rag (query : String) (chat_history : List HistEntry)
    (results : List (Document × Score)) (buffered : String)
    (model provider : String) : RAGState :=
  let messages := buildMessages query chat_history
  let r := retrieve results
  ⟨messages, query, r.documents, r.context, r.sources, buffered, false, model, provider⟩

/-- The ordered separator list of `splitter.py` (`JAPANESE_SEPARATORS`):
paragraph break, line break, Japanese and English sentence punctuation,
space, and the character-level `""` fallback. -/
def JAPANESE_SEPARATORS : List String :=
  ["\n\n", "\n", "。", "、", "！", "？", ".", ",", " ", ""]

/-- Character-level fallback, worker: consume characters one at a time into
the reversed current chunk `cur`, emitting the chunk whenever it reaches
`size` characters. -/
def chunkCharsGo (size : Nat) : List Char → List Char → List String
  | cur, [] => if cur = [] then [] else [String.mk cur.reverse]
  | cur, c :: cs =>
    if size ≤ (c :: cur).length then
      String.mk (c :: cur).reverse :: chunkCharsGo size [] cs
    else chunkCharsGo size (c :: cur) cs

/-- Character-level fallback: cut a character list into consecutive pieces of
at most `size` characters (at least one character per piece, so it terminates
even for `size = 0`). -/
def chunkChars (size : Nat) (cs : List Char) : List String :=
  chunkCharsGo size [] cs

/-- Split a character list on a non-empty separator `s0 :: srest`
(occurrences removed, pieces kept in order; `cur` is the reversed piece
accumulated so far).  `fuel` is an upper bound on the text length — every
step consumes at least one character, so with enough fuel the middle case is
never reached. -/
def splitOnFuel (s0 : Char) (srest : List Char) : Nat → List Char → List Char → List (List Char)
  | _, [], cur => [cur.reverse]
  | 0, text, cur => [cur.reverse ++ text]
  | fuel + 1, c :: cs, cur =>
    if c == s0 && srest.isPrefixOf cs then
      cur.reverse :: splitOnFuel s0 srest fuel (cs.drop srest.length) []
    else splitOnFuel s0 srest fuel cs (c :: cur)

/-- `text.split(sep)` for a non-empty separator (the `""` separator is
intercepted before this is called, as in the source's separator scan). -/
def strSplitOn (sep text : String) : List String :=
  match sep.data with
  | [] => [text]
  | s0 :: srest =>
    (splitOnFuel s0 srest text.data.length text.data []).map fun l => String.mk l

/-- Modelled from the spec: the recursive separator-priority splitting of the
external `RecursiveCharacterTextSplitter` (not in repository source; the
repository only configures it in `splitter.py`).  Per §4.1: a unit of text
within `chunk_size` stands; otherwise split on the first separator in the
list that occurs in the text and recurse on each piece with the remaining
separators; the `""` entry (and an exhausted list) means character-level
splitting, which never fails to terminate. -/
def splitPieces (size : Nat) : List String → String → List String
  | [], text =>
    if text.length ≤ size then [text] else chunkChars size text.data
  | sep :: rest, text =>
    if text.length ≤ size then [text]
    else if sep = "" then chunkChars size text.data
    else if 1 < (strSplitOn sep text).length then
      ((strSplitOn sep text).map fun piece => splitPieces size rest piece).flatten
    else splitPieces size rest text

/-- The last `n` characters of a string (the overlap carried into the next
chunk). -/
def takeRight (n : Nat) (s : String) : String :=
  String.mk (s.data.drop (s.data.length - n))

/-- Modelled from the spec: the merge phase of the external splitter (§4.1):
"merge adjacent small pieces up to `chunk_size`, inserting an overlap of up
to `chunk_overlap` trailing characters from the previous merged chunk into
the next chunk's beginning" — the overlap inserted is capped so the merged
chunk stays within `chunk_size`. -/
def mergeAux (size overlap : Nat) : String → List String → List String
  | cur, [] => [cur]
  | cur, p :: ps =>
    if cur.length + p.length ≤ size then
      mergeAux size overlap (cur ++ p) ps
    else
      cur :: mergeAux size overlap (takeRight (min overlap (size - p.length)) cur ++ p) ps

/-- Modelled from the spec: merge of the split pieces (see `mergeAux`). -/
def mergePieces (size overlap : Nat) : List String → List String
  | [] => []
  | p :: ps => mergeAux size overlap p ps

/-- Modelled from the spec: `split_text` of the configured splitter — split
by separator priority, then merge with overlap. -/
def split_text (size overlap : Nat) (text : String) : List String :=
  mergePieces size overlap (splitPieces size JAPANESE_SEPARATORS text)

/-- `split_documents`: every document's text is split and each resulting
chunk carries the source document's metadata unmodified, document order then
intra-document order. -/
def split_documents (size overlap : Nat) (docs : List Document) : List Document :=
  (docs.map fun d =>
    (split_text size overlap d.page_content).map fun t => Document.mk t d.metadata).flatten

/-- The configuration of a constructed splitter. -/
structure TextSplitter where
  chunk_size : Nat
  chunk_overlap : Nat
  separators : List String
  deriving Repr, DecidableEq

/-- Modelled from the spec: the size/overlap validation in the external
splitter's constructor (not in repository source).  §4.1 policy:
`chunk_overlap >= chunk_size` "is a caller configuration error; ... policy:
reject with a configuration error". -/
def mkRecursiveCharacterTextSplitter (chunk_size chunk_overlap : Nat)
    (separators : List String) : Except String TextSplitter :=
  if chunk_size ≤ chunk_overlap then
    Except.error "Got a larger chunk overlap than chunk size, should be smaller."
  else Except.ok ⟨chunk_size, chunk_overlap, separators⟩

/-- `rag_settings.chunk_size` default. -/
def defaultChunkSize : Nat := 1000

/-- `rag_settings.chunk_overlap` default. -/
def defaultChunkOverlap : Nat := 200

/-- Python `x or default` on an optional int argument: `None` AND `0` both
fall back to the default, because `0` is falsy. -/
def pyOrDefault (v : Option Nat) (dflt : Nat) : Nat :=
  match v with
  | none => dflt
  | some n => if n = 0 then dflt else n

/-- `create_text_splitter` from `splitter.py`:
`chunk_size=chunk_size or rag_settings.chunk_size` (ditto overlap), then the
external constructor with `JAPANESE_SEPARATORS`. -/
def create_text_splitter (chunk_size chunk_overlap : Option Nat) : Except String TextSplitter :=
  mkRecursiveCharacterTextSplitter (pyOrDefault chunk_size defaultChunkSize)
    (pyOrDefault chunk_overlap defaultChunkOverlap) JAPANESE_SEPARATORS

/-- `indexer.py` `IndexResult` dataclass. -/
structure IndexResult where
  indexed_count : Nat
  chunk_count : Nat
  errors : List String
  deriving Repr, DecidableEq

/-- One candidate file seen by `load_directory`: whether it passes the
`is_file`/supported-extension filter, and what its loader does (documents, or
an exception). -/
structure FileEntry where
  supported : Bool
  load : Except String (List Document)

/-- `load_directory`: supported files are loaded in order; a loader exception
is caught inside the generator, logged with `print`, and the iteration
continues — the failing file contributes no documents and no error value
escapes. -/
def load_directory : List FileEntry → List Document
  | [] => []
  | f :: rest =>
    if f.supported then
      (match f.load with
        | Except.ok docs => docs
        | Except.error _ => []) ++ load_directory rest
    else load_directory rest

/-- The `errors` list after the load phase of `index_documents`: empty, or
the single entry recorded when iterating `load_directory` raised. -/
def loadErrors : Option String → List String
  | none => []
  | some e => ["Error loading documents: " ++ e]

/-- `DocumentIndexer.index_documents`, as a function of the load phase's
outcome (documents collected, optional exception) and the vector-store add
outcome.  `clear_existing` only mutates the external store, so it does not
appear.  Mirrors the source: `errors or ["No documents found"]` when no
documents; `["No chunks generated after splitting"]` when no chunks; zero
counts with the add error appended on add failure; full counts otherwise. -/
def index_documents (docsLoaded : List Document) (loadErr : Option String)
    (addErr : Option String) : IndexResult :=
  let errors := loadErrors loadErr
  if docsLoaded = [] then
    ⟨0, 0, if errors = [] then ["No documents found"] else errors⟩
  else
    let chunks := split_documents defaultChunkSize defaultChunkOverlap docsLoaded
    if chunks = [] then
      ⟨docsLoaded.length, 0, ["No chunks generated after splitting"]⟩
    else
      match addErr with
      | some e => ⟨0, 0, errors ++ ["Error adding to vector store: " ++ e]⟩
      | none => ⟨docsLoaded.length, chunks.length, errors⟩

/-- A loadable single-chunk text document. -/
def docHello : Document := ⟨"hello world", ⟨some "b.txt", none, none, none⟩⟩

theorem retrieveAux_documents (results : List (Document × Score)) :
    ∀ seen, (retrieveAux results seen).1 = results.map Prod.fst := by
  induction results with
  | nil => intro seen; rfl
  | cons hd tl ih =>
    intro seen
    obtain ⟨doc, score⟩ := hd
    simp only [retrieveAux, List.map_cons]
    split
    · simpa using ih _
    · simpa using ih _

theorem retrieveAux_sources_filter (results : List (Document × Score)) (k : String) :
    ∀ seen, (retrieveAux results seen).2.filter (fun s => sourceKey s == k)
      = if k ∈ seen then []
        else ((results.map fun p => SourceInfo.from_document p.1 p.2).filter
          (fun s => sourceKey s == k)).take 1 := by
  induction results with
  | nil =>
    intro seen
    simp [retrieveAux]
  | cons hd tl ih =>
    intro seen
    obtain ⟨doc, score⟩ := hd
    by_cases hseen : sourceKey (SourceInfo.from_document doc score) ∈ seen
    · by_cases hk : k ∈ seen
      · simp [retrieveAux, hseen, hk, ih]
      · have hne : sourceKey (SourceInfo.from_document doc score) ≠ k :=
          fun h => hk (h ▸ hseen)
        simp [retrieveAux, hseen, hk, ih, hne, List.filter_cons]
    · by_cases hk : sourceKey (SourceInfo.from_document doc score) = k
      · subst hk
        simp [retrieveAux, hseen, ih, List.filter_cons]
      · have hk' : k ≠ sourceKey (SourceInfo.from_document doc score) := Ne.symm hk
        by_cases hks : k ∈ seen
        · simp [retrieveAux, hseen, hks, ih, hk, hk', List.filter_cons]
        · simp [retrieveAux, hseen, hks, ih, hk, hk', List.filter_cons]

/-- C2, counterexample: dedup is by the `":"`-joined string key, not by the
`(filename, page, slide, sheet)` tuple. Retrieving `sampleDocA` then
`sampleDocB` twice: the second and third chunks share the tuple
`("a", None, None, None)`, so the claim demands exactly one `SourceInfo` with
that tuple — the first-seen (`sampleDocB`, score 2). Instead the colliding
`sampleDocA` entry (sheet `"None"`, score 1) is the only source kept, and no
`SourceInfo` with the shared tuple appears at all. -/
theorem retrieve_dedup_tuple_counterexample :
    (retrieve [(sampleDocA, (1 : Score)), (sampleDocB, 2), (sampleDocB, 3)]).sources
      = [⟨"a", none, none, some "None", 1⟩]
    ∧ sourceTuple (SourceInfo.from_document sampleDocB 2)
        = sourceTuple (SourceInfo.from_document sampleDocB 3)
    ∧ (retrieve [(sampleDocA, (1 : Score)), (sampleDocB, 2), (sampleDocB, 3)]).sources.filter
        (fun s => sourceTuple s == sourceTuple (SourceInfo.from_document sampleDocB 2)) = []
    ∧ ⟨"a", none, none, none, (2 : Score)⟩
        ∉ (retrieve [(sampleDocA, (1 : Score)), (sampleDocB, 2), (sampleDocB, 3)]).sources := by
  refine ⟨by decide, by decide, by decide, by decide⟩

/-- C2 (amended): `retrieve` keeps every retrieved chunk in `documents` (and
hence in the rank-ordered `context` join), and deduplicates `sources` by the
`":"`-joined string key `filename:page:slide:sheet`: for every key, the
sources carrying it are exactly the first-seen retrieval result with that key
(with that chunk's score), taken in rank order.  Chunks sharing the
`(filename, page, slide, sheet)` tuple always share the string key, so at
most one `SourceInfo` survives per tuple, but distinct tuples may collide
(e.g. sheet `None` versus sheet `"None"`). -/
theorem retrieve_source_dedup (results : List (Document × Score)) :
    (retrieve results).documents = results.map Prod.fst
    ∧ (retrieve results).context
        = joinSep "\n\n---\n\n" (results.map fun p => p.1.page_content)
    ∧ (∀ k : String,
        (retrieve results).sources.filter (fun s => sourceKey s == k)
          = ((results.map fun p => SourceInfo.from_document p.1 p.2).filter
              (fun s => sourceKey s == k)).take 1)
    ∧ ∀ s₁ s₂ : SourceInfo, sourceTuple s₁ = sourceTuple s₂ → sourceKey s₁ = sourceKey s₂ := by
  have hdocs : (retrieve results).documents = results.map Prod.fst :=
    retrieveAux_documents results []
  refine ⟨hdocs, ?_, ?_, ?_⟩
  · rw [RetrievalResult.context, hdocs, List.map_map]
    rfl
  · intro k
    have h := retrieveAux_sources_filter results k []
    simpa [retrieve] using h
  · intro s₁ s₂ h
    obtain ⟨f₁, p₁, sl₁, sh₁, sc₁⟩ := s₁
    obtain ⟨f₂, p₂, sl₂, sh₂, sc₂⟩ := s₂
    simp only [sourceTuple, Prod.mk.injEq] at h
    obtain ⟨h1, h2, h3, h4⟩ := h
    simp [sourceKey, h1, h2, h3, h4]

theorem getLast?_cons_concat {α : Type} (a c : α) (b : List α) :
    (a :: (b ++ [c])).getLast? = some c := by
  rw [← List.cons_append, List.getLast?_concat]

theorem genLoop_decomp (model provider : String) (deltas : List String) :
    ∀ acc, ∃ pre,
      genLoop model provider acc deltas
        = pre ++ [⟨deltas.foldl (fun a d => a ++ d) acc, false, some model, some provider⟩]
      ∧ ∀ u ∈ pre, u.is_streaming = true ∧ u.model = none ∧ u.provider = none := by
  induction deltas with
  | nil =>
    intro acc
    exact ⟨[], rfl, by simp⟩
  | cons delta rest ih =>
    intro acc
    by_cases hd : delta = ""
    · subst hd
      obtain ⟨pre, hpre, hstr⟩ := ih acc
      refine ⟨pre, ?_, hstr⟩
      simpa [genLoop, String.append_empty] using hpre
    · obtain ⟨pre, hpre, hstr⟩ := ih (acc ++ delta)
      refine ⟨⟨acc ++ delta, true, none, none⟩ :: pre, ?_, ?_⟩
      · simp [genLoop, hd, hpre]
      · intro u hu
        rcases List.mem_cons.mp hu with h | h
        · subst h; exact ⟨rfl, rfl, rfl⟩
        · exact hstr u h

theorem genLoop_mem_grows (model provider : String) (deltas : List String) :
    ∀ acc, ∀ u ∈ genLoop model provider acc deltas, ∃ t, acc ++ t = u.response := by
  induction deltas with
  | nil =>
    intro acc u hu
    simp only [genLoop, List.mem_singleton] at hu
    exact ⟨"", by simp [hu, String.append_empty]⟩
  | cons delta rest ih =>
    intro acc u hu
    by_cases hd : delta = ""
    · subst hd
      simp only [genLoop, if_pos rfl] at hu
      exact ih acc u hu
    · simp only [genLoop, if_neg hd, List.mem_cons] at hu
      rcases hu with h | h
      · exact ⟨delta, by simp [h]⟩
      · obtain ⟨t, ht⟩ := ih (acc ++ delta) u h
        exact ⟨delta ++ t, by rw [← String.append_assoc, ht]⟩

theorem genLoop_pairwise (model provider : String) (deltas : List String) :
    ∀ acc, (genLoop model provider acc deltas).Pairwise
      fun a b => ∃ t, a.response ++ t = b.response := by
  induction deltas with
  | nil => intro acc; simp [genLoop]
  | cons delta rest ih =>
    intro acc
    by_cases hd : delta = ""
    · subst hd
      simpa [genLoop] using ih acc
    · simp only [genLoop, if_neg hd]
      refine List.pairwise_cons.mpr ⟨?_, ih (acc ++ delta)⟩
      intro u hu
      exact genLoop_mem_grows model provider rest (acc ++ delta) u hu

theorem genLoop_getLast (model provider : String) (deltas : List String) (acc : String) :
    (genLoop model provider acc deltas).getLast?
      = some ⟨deltas.foldl (fun a d => a ++ d) acc, false, some model, some provider⟩ := by
  obtain ⟨pre, hpre, -⟩ := genLoop_decomp model provider deltas acc
  rw [hpre, List.getLast?_concat]

/-- C3: every `generate_streaming` yield before the last is a streaming one
(`is_streaming=True`, no model/provider), responses grow monotonically (each
earlier response is a prefix of each later one — the accumulator is re-emitted,
never the bare delta), and exactly one final update is yielded: the last,
carrying `is_streaming=False`, the total accumulated text, and the
model/provider identifiers. -/
theorem generate_streaming_contract (deltas : List String) (model provider : String) :
    (∀ u ∈ (generate_streaming deltas model provider).dropLast,
        u.is_streaming = true ∧ u.model = none ∧ u.provider = none)
    ∧ (generate_streaming deltas model provider).getLast?
        = some ⟨deltas.foldl (fun a d => a ++ d) "", false, some model, some provider⟩
    ∧ ((generate_streaming deltas model provider).countP fun u => !u.is_streaming) = 1
    ∧ (generate_streaming deltas model provider).Pairwise
        fun a b => ∃ t, a.response ++ t = b.response := by
  obtain ⟨pre, hpre, hstr⟩ := genLoop_decomp model provider deltas ""
  refine ⟨?_, genLoop_getLast model provider deltas "", ?_, genLoop_pairwise model provider deltas ""⟩
  · intro u hu
    rw [generate_streaming, hpre, List.dropLast_concat] at hu
    exact hstr u hu
  · rw [generate_streaming, hpre, List.countP_append]
    have h0 : pre.countP (fun u => !u.is_streaming) = 0 := by
      rw [List.countP_eq_zero]
      intro u hu
      simp [(hstr u hu).1]
    simp [h0]

/-- C1, counterexample: over the stub backend emitting `"Hel"` then `"lo"`,
`stream_rag` yields five events, not the four the claim lists: the
generator's final update (`is_streaming=False`) is re-yielded as a `chunk`
event before the `done` event. -/
theorem stream_events_counterexample :
    stream_rag "q" [] [] ["Hel", "lo"] "m" "p"
      = [StreamEvent.sources [] "", StreamEvent.chunk "Hel" true,
         StreamEvent.chunk "Hello" true, StreamEvent.chunk "Hello" false,
         StreamEvent.done "Hello" "m" "p" []]
    ∧ (stream_rag "q" [] [] ["Hel", "lo"] "m" "p").length = 5
    ∧ stream_rag "q" [] [] ["Hel", "lo"] "m" "p"
      ≠ [StreamEvent.sources [] "", StreamEvent.chunk "Hel" true,
         StreamEvent.chunk "Hello" true, StreamEvent.done "Hello" "m" "p" []] :=
  ⟨by decide, by decide, by decide⟩

/-- C1 (amended): for a streaming invocation whose backend emits exactly the
deltas `"Hel"` then `"lo"`, `stream_rag` yields exactly: one `sources` event,
`chunk{response:"Hel"}`, `chunk{response:"Hello"}`, a third chunk event
`chunk{response:"Hello", is_streaming:False}` re-emitting the generator's
final update, and `done{response:"Hello"}` — in this order and nothing else. -/
theorem stream_events_hel_lo (query : String) (hist : List HistEntry)
    (results : List (Document × Score)) (model provider : String) :
    stream_rag query hist results ["Hel", "lo"] model provider
      = [StreamEvent.sources (retrieve results).sources (retrieve results).context,
         StreamEvent.chunk "Hel" true, StreamEvent.chunk "Hello" true,
         StreamEvent.chunk "Hello" false,
         StreamEvent.done "Hello" model provider (retrieve results).sources] := rfl

/-- C4: when the stub backend's buffered completion equals the concatenation
of its streamed deltas, the `response` of `run_rag`'s final state equals the
`response` carried by the final `done` event of `stream_rag` (same query,
history and retrieval results). -/
theorem run_stream_response_equiv (query : String) (hist : List HistEntry)
    (results : List (Document × Score)) (buffered : String) (deltas : List String)
    (model provider : String)
    (hdet : buffered = deltas.foldl (fun a d => a ++ d) "") :
    (stream_rag query hist results deltas model provider).getLast?
      = some (StreamEvent.done
          (run_rag query hist results buffered model provider).response
          model provider (retrieve results).sources) := by
  have hlast : (stream_rag query hist results deltas model provider).getLast?
      = some (doneEvent (generate_streaming deltas model provider) (retrieve results).sources) :=
    getLast?_cons_concat _ _ _
  have hup : (generate_streaming deltas model provider).getLast?
      = some ⟨deltas.foldl (fun a d => a ++ d) "", false, some model, some provider⟩ :=
    genLoop_getLast model provider deltas ""
  rw [hlast, doneEvent, hup]
  simp [run_rag, hdet]

/-- Witness for C4 at `buffered = "Hello"`, `deltas = ["Hel", "lo"]`. -/
theorem run_stream_response_equiv_witness :
    ("Hello" : String) = (["Hel", "lo"].foldl (fun a d => a ++ d) "")
    ∧ (stream_rag "q" [] [] ["Hel", "lo"] "m" "p").getLast?
        = some (StreamEvent.done (run_rag "q" [] [] "Hello" "m" "p").response "m" "p"
            (retrieve []).sources) :=
  ⟨by decide, run_stream_response_equiv "q" [] [] "Hello" ["Hel", "lo"] "m" "p" (by decide)⟩

theorem historyMessages_eq_filterMap (hist : List HistEntry) :
    historyMessages hist = hist.filterMap fun e =>
      if e.role = "user" then some (ChatMessage.human e.content)
      else if e.role = "assistant" then some (ChatMessage.ai e.content)
      else none := by
  induction hist with
  | nil => rfl
  | cons e rest ih =>
    by_cases h1 : e.role = "user"
    · simp [historyMessages, h1, ih, List.filterMap_cons]
    · by_cases h2 : e.role = "assistant" <;>
        simp [historyMessages, h1, h2, ih, List.filterMap_cons]

/-- C10: `run_rag` and `stream_rag` build the message list by keeping exactly
the history entries whose role is `"user"` or `"assistant"` (any other role
is silently dropped), in order, and appending the current query as a user
message, so the last message is always the current query.  (`stream_rag`
calls the same `buildMessages`.) -/
theorem messages_built_from_history (query : String) (hist : List HistEntry)
    (results : List (Document × Score)) (buffered model provider : String) :
    buildMessages query hist
        = (hist.filterMap fun e =>
            if e.role = "user" then some (ChatMessage.human e.content)
            else if e.role = "assistant" then some (ChatMessage.ai e.content)
            else none) ++ [ChatMessage.human query]
    ∧ (run_rag query hist results buffered model provider).messages
        = buildMessages query hist
    ∧ (buildMessages query hist).getLast? = some (ChatMessage.human query) := by
  refine ⟨?_, rfl, ?_⟩
  · rw [buildMessages, historyMessages_eq_filterMap]
  · rw [buildMessages, List.getLast?_concat]

theorem chunkCharsGo_length (size : Nat) (hs : 1 ≤ size) :
    ∀ cs cur : List Char, cur.length < size →
      ∀ s ∈ chunkCharsGo size cur cs, s.length ≤ size := by
  intro cs
  induction cs with
  | nil =>
    intro cur hcur s hsmem
    by_cases h : cur = []
    · simp [chunkCharsGo, h] at hsmem
    · simp only [chunkCharsGo, if_neg h, List.mem_singleton] at hsmem
      subst hsmem
      show cur.reverse.length ≤ size
      rw [List.length_reverse]
      omega
  | cons c cs ih =>
    intro cur hcur s hsmem
    by_cases h : size ≤ (c :: cur).length
    · simp only [chunkCharsGo, if_pos h] at hsmem
      rcases List.mem_cons.mp hsmem with h1 | h1
      · subst h1
        show (c :: cur).reverse.length ≤ size
        rw [List.length_reverse, List.length_cons]
        omega
      · exact ih [] (by simp; omega) s h1
    · simp only [chunkCharsGo, if_neg h] at hsmem
      simp only [List.length_cons, Nat.not_le] at h
      exact ih (c :: cur) (by simpa using h) s hsmem

theorem chunkChars_length (size : Nat) (hs : 1 ≤ size) :
    ∀ cs : List Char, ∀ s ∈ chunkChars size cs, s.length ≤ size := by
  intro cs s hsmem
  exact chunkCharsGo_length size hs cs [] (by simp; omega) s hsmem

theorem splitPieces_length (size : Nat) (hs : 1 ≤ size) :
    ∀ seps text, ∀ p ∈ splitPieces size seps text, p.length ≤ size := by
  intro seps
  induction seps with
  | nil =>
    intro text p hp
    by_cases h : text.length ≤ size
    · simp [splitPieces, h] at hp
      exact hp ▸ h
    · simp [splitPieces, h] at hp
      exact chunkChars_length size hs _ p hp
  | cons sep rest ih =>
    intro text p hp
    by_cases h : text.length ≤ size
    · simp [splitPieces, h] at hp
      exact hp ▸ h
    · by_cases hsep : sep = ""
      · simp [splitPieces, h, hsep] at hp
        exact chunkChars_length size hs _ p hp
      · by_cases hocc : 1 < (strSplitOn sep text).length
        · simp only [splitPieces, if_neg (by omega : ¬text.length ≤ size), if_neg hsep,
            if_pos hocc, List.mem_flatten, List.mem_map] at hp
          obtain ⟨l, ⟨piece, _, hl⟩, hpl⟩ := hp
          exact ih piece p (hl ▸ hpl)
        · simp only [splitPieces, if_neg (by omega : ¬text.length ≤ size), if_neg hsep,
            if_neg hocc] at hp
          exact ih text p hp

theorem takeRight_length (n : Nat) (s : String) : (takeRight n s).length ≤ n := by
  show (s.data.drop (s.data.length - n)).length ≤ n
  rw [List.length_drop]
  omega

theorem mergeAux_length (size overlap : Nat) :
    ∀ ps cur, cur.length ≤ size → (∀ p ∈ ps, p.length ≤ size) →
      ∀ s ∈ mergeAux size overlap cur ps, s.length ≤ size := by
  intro ps
  induction ps with
  | nil =>
    intro cur hcur _ s hsmem
    simp [mergeAux] at hsmem
    exact hsmem ▸ hcur
  | cons p ps ih =>
    intro cur hcur hall s hsmem
    have hp : p.length ≤ size := hall p (List.mem_cons_self _ _)
    have hrest : ∀ q ∈ ps, q.length ≤ size :=
      fun q hq => hall q (List.mem_cons_of_mem _ hq)
    by_cases hfit : cur.length + p.length ≤ size
    · simp only [mergeAux, if_pos hfit] at hsmem
      apply ih (cur ++ p) _ hrest s hsmem
      rw [String.length_append]
      exact hfit
    · simp only [mergeAux, if_neg hfit] at hsmem
      rcases List.mem_cons.mp hsmem with h | h
      · exact h ▸ hcur
      · apply ih _ _ hrest s h
        rw [String.length_append]
        have h1 := takeRight_length (min overlap (size - p.length)) cur
        have h2 : min overlap (size - p.length) ≤ size - p.length := Nat.min_le_right _ _
        omega

theorem mergePieces_length (size overlap : Nat) (ps : List String)
    (hall : ∀ p ∈ ps, p.length ≤ size) :
    ∀ s ∈ mergePieces size overlap ps, s.length ≤ size := by
  match ps with
  | [] => simp [mergePieces]
  | p :: ps' =>
    exact mergeAux_length size overlap ps' p (hall p (List.mem_cons_self _ _))
      (fun q hq => hall q (List.mem_cons_of_mem _ hq))

/-- C9: for every size/overlap pair with `overlap < size` (and a positive
size), the chunker run on any document list produces only chunks of text
length at most `size`.  In this configuration the separator list ends with
the `""` character-level fallback, so no indivisible token survives oversized
— the claim's permitted exception never fires. -/
theorem split_documents_chunk_bound (size overlap : Nat) (docs : List Document)
    (hs : 1 ≤ size) (ho : overlap < size) :
    ∀ chunk ∈ split_documents size overlap docs, chunk.page_content.length ≤ size := by
  intro chunk hchunk
  simp only [split_documents, List.mem_flatten, List.mem_map] at hchunk
  obtain ⟨l, ⟨d, _, hl⟩, hcl⟩ := hchunk
  subst hl
  simp only [List.mem_map] at hcl
  obtain ⟨t, ht, hchunk⟩ := hcl
  have hb : t.length ≤ size :=
    mergePieces_length size overlap _
      (splitPieces_length size hs JAPANESE_SEPARATORS d.page_content) t ht
  rw [← hchunk]
  exact hb

/-- Witness for C9 at `size = 5`, `overlap = 2`, one document `"ab cd ef"`:
the chunk `"abcd"` is produced and respects the bound. -/
theorem split_documents_chunk_bound_witness :
    (1 ≤ 5 ∧ 2 < 5)
    ∧ Document.mk "abcd" ⟨some "a.txt", none, none, none⟩
        ∈ split_documents 5 2 [⟨"ab cd ef", ⟨some "a.txt", none, none, none⟩⟩]
    ∧ ("abcd" : String).length ≤ 5 :=
  ⟨⟨by decide, by decide⟩, by decide,
    split_documents_chunk_bound 5 2 [⟨"ab cd ef", ⟨some "a.txt", none, none, none⟩⟩]
      (by decide) (by decide) (Document.mk "abcd" ⟨some "a.txt", none, none, none⟩)
      (by decide)⟩

/-- C8, counterexample: the configuration `chunk_size = 0, chunk_overlap = 0`
satisfies `chunk_overlap ≥ chunk_size`, yet `create_text_splitter` accepts
it: Python's `or` treats `0` as falsy, so both values are silently replaced
by the configured defaults (1000 / 200) before any validation. -/
theorem create_text_splitter_counterexample :
    (0 : Nat) ≥ 0
    ∧ create_text_splitter (some 0) (some 0)
        = Except.ok ⟨1000, 200, JAPANESE_SEPARATORS⟩ :=
  ⟨Nat.le_refl 0, rfl⟩

/-- C8 (amended): for every configuration with `0 < chunk_size ≤
chunk_overlap`, construction is rejected with a configuration error (per the
spec's stated policy, modelled in `mkRecursiveCharacterTextSplitter`); a
value of `0`, however, is falsy in Python and silently replaced by the
configured default before validation, so such configurations are accepted. -/
theorem create_text_splitter_rejects (chunk_size chunk_overlap : Nat)
    (h0 : 0 < chunk_size) (h : chunk_size ≤ chunk_overlap) :
    ∃ msg, create_text_splitter (some chunk_size) (some chunk_overlap)
      = Except.error msg := by
  have hs : chunk_size ≠ 0 := by omega
  have ho : chunk_overlap ≠ 0 := by omega
  refine ⟨"Got a larger chunk overlap than chunk size, should be smaller.", ?_⟩
  simp [create_text_splitter, pyOrDefault, hs, ho, mkRecursiveCharacterTextSplitter, h]

/-- Witness for C8 (amended) at `chunk_size = chunk_overlap = 100`. -/
theorem create_text_splitter_rejects_witness :
    (0 < 100 ∧ 100 ≤ 100)
    ∧ ∃ msg, create_text_splitter (some 100) (some 100) = Except.error msg :=
  ⟨⟨by decide, by decide⟩, create_text_splitter_rejects 100 100 (by decide) (by decide)⟩

/-- C5, counterexample: if iterating `load_directory` raises (e.g. the
configured directory does not exist), zero documents are produced but the
result's `errors` is the recorded load error, not `["No documents found"]` —
`errors or ["No documents found"]` only falls back when `errors` is empty. -/
theorem index_no_docs_counterexample :
    index_documents [] (some "Directory does not exist: data/docs") none
      = ⟨0, 0, ["Error loading documents: Directory does not exist: data/docs"]⟩
    ∧ (index_documents [] (some "Directory does not exist: data/docs") none).errors
      ≠ ["No documents found"] :=
  ⟨rfl, by decide⟩

/-- C5 (amended): whenever the load phase produces zero documents and
recorded no load error, `index_documents` returns immediately with zero
counts and `errors = ["No documents found"]` (whatever the vector-store add
would have done — it is never reached). -/
theorem index_no_docs (addErr : Option String) :
    index_documents [] none addErr = ⟨0, 0, ["No documents found"]⟩ := rfl

/-- C6, counterexample: a failing file followed by a loadable one — the run
continues and indexes the good file, but the returned `errors` list is empty:
the per-file exception is only printed inside `load_directory`, never
aggregated into `IndexResult.errors`. -/
theorem index_load_error_counterexample :
    load_directory [⟨true, Except.error "bad file"⟩, ⟨true, Except.ok [docHello]⟩]
      = [docHello]
    ∧ index_documents
        (load_directory [⟨true, Except.error "bad file"⟩, ⟨true, Except.ok [docHello]⟩])
        none none
      = ⟨1, 1, []⟩ :=
  ⟨rfl, by decide⟩

/-- C6 (amended): a file whose loader raises is skipped and the remaining
files still load and index (the run is not aborted), but its error is only
logged, never aggregated: the whole `IndexResult` — `errors` included — is
the same as if the failing file were absent. -/
theorem index_load_error_skips (pre post : List FileEntry) (err : String)
    (addErr : Option String) :
    load_directory (pre ++ ⟨true, Except.error err⟩ :: post)
      = load_directory (pre ++ post)
    ∧ index_documents (load_directory (pre ++ ⟨true, Except.error err⟩ :: post)) none addErr
      = index_documents (load_directory (pre ++ post)) none addErr := by
  have h : load_directory (pre ++ ⟨true, Except.error err⟩ :: post)
      = load_directory (pre ++ post) := by
    induction pre with
    | nil => simp [load_directory]
    | cons f rest ih => simp [load_directory, ih]
  exact ⟨h, by rw [h]⟩

/-- C7: if the batch add of chunks to the vector store fails, the returned
`IndexResult` credits nothing — `indexed_count = 0` and `chunk_count = 0` —
and the add-failure message is appended to the errors accumulated so far. -/
theorem index_add_failure (docsLoaded : List Document) (loadErr : Option String)
    (msg : String) (hdocs : docsLoaded ≠ [])
    (hchunks : split_documents defaultChunkSize defaultChunkOverlap docsLoaded ≠ []) :
    index_documents docsLoaded loadErr (some msg)
      = ⟨0, 0, loadErrors loadErr ++ ["Error adding to vector store: " ++ msg]⟩ := by
  simp [index_documents, hdocs, hchunks]

/-- Witness for C7: one document, no load error, add failing with
`"Store error"`. -/
theorem index_add_failure_witness :
    ([docHello] ≠ ([] : List Document))
    ∧ split_documents defaultChunkSize defaultChunkOverlap [docHello] ≠ []
    ∧ index_documents [docHello] none (some "Store error")
      = ⟨0, 0, ["Error adding to vector store: Store error"]⟩ :=
  ⟨by decide, by decide, by
    have h := index_add_failure [docHello] none "Store error" (by decide) (by decide)
    simpa [loadErrors] using h⟩

end MermaidRag
